import Mathlib

/-!
Verification of the opencode-ptc plugin core (runtime.ts, generators.ts,
ptc-tool.ts, types.ts) via a shallow embedding in Lean.

JavaScript values that flow through the engine are modelled by `JSValue`;
records (JS objects used as maps) are modelled as association lists in
insertion order, matching `Object.entries` enumeration order; the mutable
shared sinks (`logs`, `callRecords`) are modelled by explicit list passing;
a JS function that may throw is modelled as a function into `Except`.
-/

namespace PTC

/-- A JSON-serialisable JavaScript value (the values executed code passes to
`log` and to tool bindings). -/
inductive JSValue where
  | vStr (s : String)
  | vNum (n : Int)
  | vBool (b : Bool)
  | vNull
  | vArr (xs : List JSValue)
  | vObj (fields : List (String × JSValue))

/-- JS `typeof arg === "string"`. -/
def typeofIsString : JSValue → Bool
  | .vStr _ => true
  | _ => false

/-- Reads the string payload of a string value (the identity coercion the
source performs when `typeof arg === "string"` holds). -/
def asJSString : JSValue → String
  | .vStr s => s
  | _ => ""

/-- One character of `JSON.stringify`'s string escaping. -/
def jsonEscapeChar (c : Char) : String :=
  if c = '"' then "\\\"" else if c = '\\' then "\\\\" else String.singleton c

/-- `JSON.stringify` applied to a string. -/
def jsonQuote (s : String) : String :=
  "\"" ++ String.join (s.data.map jsonEscapeChar) ++ "\""

mutual
/-- `JSON.stringify` on the modelled value domain. -/
def jsonStringify : JSValue → String
  | .vStr s => jsonQuote s
  | .vNum n => toString n
  | .vBool b => cond b "true" "false"
  | .vNull => "null"
  | .vArr xs => "[" ++ String.intercalate "," (jsonStringifyList xs) ++ "]"
  | .vObj fs => "\x7b" ++ String.intercalate "," (jsonStringifyFields fs) ++ "\x7d"

def jsonStringifyList : List JSValue → List String
  | [] => []
  | v :: vs => jsonStringify v :: jsonStringifyList vs

def jsonStringifyFields : List (String × JSValue) → List String
  | [] => []
  | f :: fs => (jsonQuote f.1 ++ ":" ++ jsonStringify f.2) :: jsonStringifyFields fs
end

/-! ## Name sanitization (runtime.ts `sanitizeName`, generators.ts `sanitizeName`)

`name.replace(/[^a-zA-Z0-9_]/g, "_")`: every character outside
`[A-Za-z0-9_]` becomes an underscore. -/

/-- Membership in the regex character class `[a-zA-Z0-9_]`, by code point. -/
def AllowedChar (c : Char) : Prop :=
  (97 ≤ c.toNat ∧ c.toNat ≤ 122)      -- a-z
  ∨ (65 ≤ c.toNat ∧ c.toNat ≤ 90)     -- A-Z
  ∨ (48 ≤ c.toNat ∧ c.toNat ≤ 57)     -- 0-9
  ∨ c = '_'

instance (c : Char) : Decidable (AllowedChar c) := by
  unfold AllowedChar; infer_instance

/-- The action of the replace on one character. -/
def sanitizeChar (c : Char) : Char :=
  if AllowedChar c then c else '_'

/-- `sanitizeName` of runtime.ts (and the identical private copy in
generators.ts). -/
def sanitizeName (s : String) : String :=
  ⟨s.data.map sanitizeChar⟩

/-! ## Capability descriptors (types.ts) -/

/-- `PTCParameter` (types.ts). `items` and `properties` are carried through
from the raw schema by an unchecked cast in the source, so they are kept as
raw JSON values here. -/
structure PTCParameter where
  type : String
  description : Option String := none
  required : Bool := false
  enum : Option (List String) := none
  items : Option JSValue := none
  properties : Option JSValue := none

/-- `PTCTool` (types.ts); `parameters` is a record in insertion order. -/
structure PTCTool where
  name : String
  description : String
  parameters : List (String × PTCParameter) := []

/-- The `mode` union of `PTCAgent` (types.ts). -/
inductive AgentMode where
  | subagent
  | primary
  | all
deriving DecidableEq

/-- `PTCAgent` (types.ts). -/
structure PTCAgent where
  name : String
  description : Option String := none
  mode : AgentMode

/-- `PTCSkill` (types.ts). -/
structure PTCSkill where
  name : String
  description : String

/-! ## Namespace objects

The executor builds each of `tools` / `agents` / `skills` by looping over
the descriptor list and assigning `obj[sanitizeName(name)] = binding`; a JS
property assignment overwrites any earlier value at the same key. The
binding stored for a descriptor is a closure over that descriptor, so the
namespace is modelled as mapping each key to the descriptor bound last. -/

/-- One JS property assignment `m[k] = v`. -/
def namespaceInsert {α : Type} (m : String → Option α) (k : String) (v : α) :
    String → Option α :=
  fun q => if q = k then some v else m q

/-- The `for (const tool of this.tools)` loop of `PTCExecutor.execute`
(runtime.ts lines 57-66), recording which descriptor each sanitized key is
bound to. -/
def buildToolNamespace (tools : List PTCTool) : String → Option PTCTool :=
  tools.foldl (fun m t => namespaceInsert m (sanitizeName t.name) t) (fun _ => none)

/-! ## Catalog normalization (generators.ts `fetchAvailableTools`,
`fetchAvailableAgents`, `fetchAvailableSkills`)

The transport layer (the `client.*` calls and their error branches, which
throw before any normalization happens) is outside the embedding; the pure
normalization applied to the fetched raw lists is embedded below. -/

/-- A raw JSON-schema property as read by `fetchAvailableTools`: only the
fields the source accesses, each possibly absent. -/
structure RawParam where
  type? : Option String := none
  description? : Option String := none
  enum? : Option (List String) := none
  items? : Option JSValue := none
  properties? : Option JSValue := none

/-- The raw `parameters` schema of a tool. `required?` is `some list` when
`schema.required` is present and is an array (the `Array.isArray` guard of
generators.ts line 76), `none` otherwise. `properties?` is `some props`
when `schema.properties` is present and is an object. -/
structure RawSchema where
  properties? : Option (List (String × RawParam)) := none
  required? : Option (List String) := none

/-- A raw tool descriptor from the host (`toolDef`): the fields the source
reads. -/
structure RawTool where
  id : String
  description? : Option String := none
  parameters? : Option RawSchema := none

/-- One property conversion (generators.ts lines 73-80): type defaults to
"string", required iff the name is in the schema's required array. -/
def normalizeParam (schema : RawSchema) (paramName : String) (p : RawParam) :
    PTCParameter :=
  { type := p.type?.getD "string"
    description := p.description?
    required := match schema.required? with
      | some req => req.contains paramName
      | none => false
    enum := p.enum?
    items := p.items?
    properties := p.properties? }

/-- The parameter mapping built for one raw tool (generators.ts lines
68-82): empty unless the schema exists and has a properties object. -/
def normalizeToolParams (toolDef : RawTool) : List (String × PTCParameter) :=
  match toolDef.parameters? with
  | none => []
  | some schema =>
    match schema.properties? with
    | none => []
    | some props => props.map (fun np => (np.1, normalizeParam schema np.1 np.2))

/-- One tool normalization (generators.ts lines 84-88): name from `id`,
description defaulted to the empty string. -/
def normalizeTool (toolDef : RawTool) : PTCTool :=
  { name := toolDef.id
    description := toolDef.description?.getD ""
    parameters := normalizeToolParams toolDef }

/-- The pure part of `fetchAvailableTools` applied to the fetched list. -/
def normalizeTools (raw : List RawTool) : List PTCTool :=
  raw.map normalizeTool

/-- A raw agent descriptor from `client.app.agents()`: the fields the
source reads. -/
structure RawAgent where
  name : String
  description : Option String := none
  mode : AgentMode

/-- The pure part of `fetchAvailableAgents` (generators.ts lines 100-106):
drop agents whose mode is primary, keep name, description, mode. -/
def normalizeAgents (raw : List RawAgent) : List PTCAgent :=
  (raw.filter (fun a => a.mode ≠ AgentMode.primary)).map
    (fun a => { name := a.name, description := a.description, mode := a.mode })

/-- `fetchAvailableSkills` (generators.ts lines 109-111): always empty. -/
def fetchAvailableSkills : List PTCSkill := []

/-! ## Signature listing (generators.ts `generateFunctionSignatures`,
`mapTypeToTS`) -/

/-- `mapTypeToTS` (generators.ts lines 250-266). -/
def mapTypeToTS (t : String) : String :=
  if t = "string" then "string"
  else if t = "number" then "number"
  else if t = "integer" then "number"
  else if t = "boolean" then "boolean"
  else if t = "array" then "unknown[]"
  else if t = "object" then "Record<string, unknown>"
  else "unknown"

/-- One rendered parameter: `name` or `name?`, then the display type
(generators.ts line 216). -/
def renderParam (name : String) (p : PTCParameter) : String :=
  name ++ (if p.required then "" else "?") ++ ": " ++ mapTypeToTS p.type

/-- The three lines pushed for one tool (generators.ts lines 214-222). -/
def renderToolLines (t : PTCTool) : List String :=
  let params := String.intercalate ", "
    (t.parameters.map (fun np => renderParam np.1 np.2))
  ["// " ++ t.description,
   "async function " ++ sanitizeName t.name ++
     "(args: \x7b " ++ params ++ " \x7d): Promise<string>",
   ""]

/-- The three lines pushed for one agent (generators.ts lines 227-231). -/
def renderAgentLines (a : PTCAgent) : List String :=
  ["// " ++ a.description.getD "No description",
   "// agents." ++ sanitizeName a.name ++ " - not directly callable",
   ""]

/-- The three lines pushed for one skill (generators.ts lines 236-240). -/
def renderSkillLines (s : PTCSkill) : List String :=
  ["// " ++ s.description,
   "// skills." ++ sanitizeName s.name ++ " - not directly callable",
   ""]

/-- The `lines` array of `generateFunctionSignatures` before joining. -/
def signatureLines (tools : List PTCTool) (agents : List PTCAgent)
    (skills : List PTCSkill) : List String :=
  ["// Available Tools", ""]
  ++ (tools.map renderToolLines).flatten
  ++ ["// Available Agents (listing only - use 'task' tool for invocation)", ""]
  ++ (agents.map renderAgentLines).flatten
  ++ (if 0 < skills.length then
        ["// Available Skills (listing only - use 'skill' tool for invocation)", ""]
        ++ (skills.map renderSkillLines).flatten
      else [])

/-- `generateFunctionSignatures` (generators.ts lines 204-244). -/
def generateFunctionSignatures (tools : List PTCTool) (agents : List PTCAgent)
    (skills : List PTCSkill) : String :=
  String.intercalate "\n" (signatureLines tools agents skills)

/-! ## Execution context and call records (types.ts, ptc-tool.ts) -/

/-- `PTCContext` at runtime. The declared interface (types.ts) requires
every identifier to be present; `modelID` is `Option String` here because
the runtime object built in ptc-tool.ts can lack the property, in which
case reading it yields `undefined` (modelled as `none`). The `client`
handle is outside the embedding. -/
structure PTCContext where
  sessionID : String
  messageID : String
  providerID : String
  modelID : Option String
  agent : String
  directory : Option String := none

/-- The `PTCContext` declared in types.ts has `modelID : string` as a
required (non-optional) property. -/
def PTCContext.hasDeclaredModelID (c : PTCContext) : Prop :=
  c.modelID.isSome

/-- The `ptcContext` object literal built by `ptc_execute` (ptc-tool.ts
lines 67-73). The literal sets `sessionID`, `messageID`, `providerID`,
`agent` (and `client`); it contains no `modelID` and no `directory`
property. -/
def buildPtcContext (sessionID messageID providerID agent : String) :
    PTCContext :=
  { sessionID := sessionID
    messageID := messageID
    providerID := providerID
    modelID := none
    agent := agent
    directory := none }

/-- `PTCToolCallRecord` (types.ts). -/
structure PTCToolCallRecord where
  tool : String
  args : List (String × JSValue)
  result : Option String := none
  error : Option String := none
  duration : Nat := 0

/-- The request body a tool binding sends to `client.tool.execute`
(generators.ts lines 130-138). -/
structure ToolExecBody where
  sessionID : String
  messageID : String
  providerID : String
  modelID : Option String
  toolID : String
  args : List (String × JSValue)
  agent : String

/-- The body built by `createToolFunction` from its captured context and
tool: each identifier is read off the context, and `toolID` is the tool's
original (unsanitized) name. -/
def toolExecBody (ctx : PTCContext) (toolName : String)
    (args : List (String × JSValue)) : ToolExecBody :=
  { sessionID := ctx.sessionID
    messageID := ctx.messageID
    providerID := ctx.providerID
    modelID := ctx.modelID
    toolID := toolName
    args := args
    agent := ctx.agent }

/-- How one `client.tool.execute` round trip can settle, seen from the
binding: a response with data (whose `output` may be absent), a response
with `error` set, or a rejection thrown during the awaited call. -/
inductive HostToolOutcome where
  | ok (output : Option String)
  | errResponse (err : String)
  | raised (msg : String)

/-- One invocation of the closure returned by `createToolFunction`
(generators.ts lines 119-153). `host` is the single-tool-execution
operation of the host, consulted at the request body the closure builds;
`elapsed` is the wall-clock `Date.now() - startTime` observed in the
`finally` block. Returns the invocation's outcome and the updated shared
sink: the `finally` block writes `duration` and pushes the record on every
path. -/
def toolInvoke (tool : PTCTool) (ctx : PTCContext)
    (host : ToolExecBody → HostToolOutcome)
    (args : List (String × JSValue)) (elapsed : Nat)
    (records : List PTCToolCallRecord) :
    Except String String × List PTCToolCallRecord :=
  let record : PTCToolCallRecord := { tool := tool.name, args := args, duration := 0 }
  match host (toolExecBody ctx tool.name args) with
  | .ok output =>
      let out := output.getD ""
      let record := { record with result := some out }
      (Except.ok out, records ++ [{ record with duration := elapsed }])
  | .errResponse err =>
      let msg := "Tool execute failed: " ++ err
      let record := { record with error := some msg }
      (Except.error msg, records ++ [{ record with duration := elapsed }])
  | .raised msg =>
      let record := { record with error := some msg }
      (Except.error msg, records ++ [{ record with duration := elapsed }])

/-- One invocation of the closure returned by `createAgentFunction`
(generators.ts lines 162-177): sets `error` on the record, throws, and the
`finally` block writes `duration` and pushes the record. -/
def agentInvoke (agent : PTCAgent) (prompt : String) (elapsed : Nat)
    (records : List PTCToolCallRecord) :
    Except String String × List PTCToolCallRecord :=
  let record : PTCToolCallRecord :=
    { tool := "agent:" ++ agent.name
      args := [("prompt", JSValue.vStr prompt)]
      duration := 0 }
  let record := { record with
    error := some "Agent calls are not yet supported in direct execution mode" }
  (Except.error
     "Agent calls are not yet supported. Use the 'task' tool directly for agent invocation.",
   records ++ [{ record with duration := elapsed }])

/-- One invocation of the closure returned by `createSkillFunction`
(generators.ts lines 186-201). -/
def skillInvoke (skill : PTCSkill) (elapsed : Nat)
    (records : List PTCToolCallRecord) :
    Except String String × List PTCToolCallRecord :=
  let record : PTCToolCallRecord :=
    { tool := "skill:" ++ skill.name
      args := []
      duration := 0 }
  let record := { record with
    error := some "Skill calls are not yet supported in direct execution mode" }
  (Except.error
     "Skill calls are not yet supported. Use the 'skill' tool directly.",
   records ++ [{ record with duration := elapsed }])

/-! ## The log function (runtime.ts lines 94-98) -/

/-- What one argument contributes to a log entry:
`typeof arg === "string" ? arg : JSON.stringify(arg)`. -/
def logArgPiece (a : JSValue) : String :=
  if typeofIsString a then asJSString a else jsonStringify a

/-- The single string one `log(...)` call pushes: the argument pieces
joined by a single space (`Array.join(" ")`). -/
def logEntry (args : List JSValue) : String :=
  String.intercalate " " (args.map logArgPiece)

/-- One call of the `log` closure: `logs.push(...)`. -/
def logCall (logs : List String) (args : List JSValue) : List String :=
  logs ++ [logEntry args]

/-- A sequence of `log` calls, applied in call order to the shared `logs`
sink. -/
def runLog (logs : List String) (calls : List (List JSValue)) : List String :=
  calls.foldl logCall logs

/-! ## The executor (runtime.ts `PTCExecutor`) -/

/-- `PTCExecutorOptions` (types.ts): both fields optional. -/
structure PTCExecutorOptions where
  timeout : Option Nat := none
  maxToolCalls : Option Nat := none

def DEFAULT_TIMEOUT : Nat := 300000

def DEFAULT_MAX_TOOL_CALLS : Nat := 100

/-- The defaulting done in the `PTCExecutor` constructor (runtime.ts lines
44-47): `options.timeout ?? DEFAULT_TIMEOUT`, and likewise for
`maxToolCalls`. -/
structure ResolvedOptions where
  timeout : Nat
  maxToolCalls : Nat

def resolveOptions (o : PTCExecutorOptions) : ResolvedOptions :=
  { timeout := o.timeout.getD DEFAULT_TIMEOUT
    maxToolCalls := o.maxToolCalls.getD DEFAULT_MAX_TOOL_CALLS }

/-- How the compiled code unit settles when it does: resolve (possibly with
`undefined`) or reject, with the thrown value already normalized to its
display string (`err.message` for an `Error`, `String(err)` otherwise —
runtime.ts line 113). -/
inductive CodeOutcome where
  | returns (v : Option JSValue)
  | throws (msg : String)

/-- The observable behaviour of one submitted code string run against one
runtime: JS evaluation itself is outside the embedding, so the code unit is
abstracted by what it does. `compileError?` is `some msg` when the
`AsyncFunction` constructor throws on the wrapped source (a syntax error);
`settleTime` is the wall-clock time in ms at which the execution promise
settles; `logs` and `records` are the contents of the shared sinks at the
moment the engine reports (the sinks are populated even for a failing or
timed-out run, holding whatever was gathered so far). -/
structure CodeBehavior where
  compileError? : Option String := none
  outcome : CodeOutcome
  settleTime : Nat
  logs : List String
  records : List PTCToolCallRecord

/-- The timeout rejection message (runtime.ts line 138). -/
def timeoutMessage (t : Nat) : String :=
  "Execution timed out after " ++ toString t ++ "ms"

/-- `executeWithTimeout` (runtime.ts lines 120-151): compile the wrapped
code (a synchronous throw inside the async method becomes a rejection),
then race the execution promise against the timer; the code unit's own
settlement wins exactly when it settles strictly before the timer fires at
`timeout` ms. -/
def executeWithTimeout (b : CodeBehavior) (timeout : Nat) :
    Except String (Option JSValue) :=
  match b.compileError? with
  | some msg => Except.error msg
  | none =>
    if b.settleTime < timeout then
      match b.outcome with
      | .returns v => Except.ok v
      | .throws m => Except.error m
    else
      Except.error (timeoutMessage timeout)

/-- `PTCExecutionResult` (types.ts). -/
structure PTCExecutionResult where
  success : Bool
  result : Option JSValue := none
  error : Option String := none
  logs : List String
  toolCalls : List PTCToolCallRecord

/-- `PTCExecutor.execute` (runtime.ts lines 50-118): the whole body of the
try/catch. Every rejection of `executeWithTimeout` is caught and turned
into a `success: false` result; both branches return the shared `logs` and
`callRecords` sinks. -/
def execute (b : CodeBehavior) (opts : PTCExecutorOptions) :
    PTCExecutionResult :=
  match executeWithTimeout b (resolveOptions opts).timeout with
  | Except.ok v =>
      { success := true, result := v, logs := b.logs, toolCalls := b.records }
  | Except.error e =>
      { success := false, error := some e, logs := b.logs, toolCalls := b.records }

/-! ## Concrete scenario values used by the theorems below -/

/-- The catalog of the listing scenario: one tool `read-file` with a single
required string parameter `filePath`. -/
def readFileTool : PTCTool :=
  { name := "read-file", description := "Read a file",
    parameters := [("filePath", { type := "string", required := true })] }

/-- A submission whose source does not compile: the `AsyncFunction`
constructor throws, no code ever runs, the sinks stay empty. -/
def compileFailBehavior : CodeBehavior :=
  { compileError? := some "SyntaxError: Unexpected token"
    outcome := CodeOutcome.returns none
    settleTime := 0
    logs := []
    records := [] }

/-- A submission that would resolve with 42 only after 7000 ms, having
logged one line before stalling. -/
def timedOutBehavior : CodeBehavior :=
  { compileError? := none
    outcome := CodeOutcome.returns (some (JSValue.vNum 42))
    settleTime := 7000
    logs := ["step 1 done"]
    records := [] }


/-- Replacing a character a second time changes nothing: the replacement
target is itself inside the class `[A-Za-z0-9_]`. -/
theorem sanitizeChar_idem (c : Char) : sanitizeChar (sanitizeChar c) = sanitizeChar c := by
  by_cases h : AllowedChar c
  · simp [sanitizeChar, h]
  · simp [sanitizeChar, h]

/-- C5: name sanitization replaces every character outside `[A-Za-z0-9_]`
with an underscore and keeps every character inside it; it is idempotent;
and in the namespace built by the executor the binding written last for a
sanitized key is the one that survives (last write wins, not an error). -/
theorem sanitizeName_spec :
    (∀ c : Char, ¬ AllowedChar c → sanitizeChar c = '_')
    ∧ (∀ c : Char, AllowedChar c → sanitizeChar c = c)
    ∧ (∀ s : String, sanitizeName (sanitizeName s) = sanitizeName s)
    ∧ (∀ (ts : List PTCTool) (t : PTCTool),
        buildToolNamespace (ts ++ [t]) (sanitizeName t.name) = some t) := by
  refine ⟨?_, ?_, ?_, ?_⟩
  · intro c h; simp [sanitizeChar, h]
  · intro c h; simp [sanitizeChar, h]
  · intro s
    have h : sanitizeChar ∘ sanitizeChar = sanitizeChar := funext sanitizeChar_idem
    show (⟨((s.data.map sanitizeChar).map sanitizeChar : List Char)⟩ : String)
        = (⟨s.data.map sanitizeChar⟩ : String)
    rw [List.map_map, h]
  · intro ts t
    simp [buildToolNamespace, List.foldl_append, namespaceInsert]

theorem sanitizeName_spec_witness :
    (¬ AllowedChar '/' ∧ sanitizeChar '/' = '_')
    ∧ (AllowedChar 'a' ∧ sanitizeChar 'a' = 'a')
    ∧ sanitizeName (sanitizeName "file/read") = sanitizeName "file/read"
    ∧ sanitizeName "file/read" = "file_read"
    ∧ sanitizeName "file:read" = "file_read"
    ∧ buildToolNamespace
        ([{ name := "file/read", description := "" }] ++ [{ name := "file:read", description := "" }])
        (sanitizeName "file:read")
        = some { name := "file:read", description := "" } := by
  refine ⟨⟨by decide, sanitizeName_spec.1 '/' (by decide)⟩,
          ⟨by decide, sanitizeName_spec.2.1 'a' (by decide)⟩,
          sanitizeName_spec.2.2.1 "file/read",
          by decide, by decide,
          sanitizeName_spec.2.2.2 [{ name := "file/read", description := "" }] { name := "file:read", description := "" }⟩


/-- C7: tool normalization marks a parameter required exactly when its name
appears in the schema's required-name list, defaults the parameter type to
"string" when the schema property has no type, and produces an empty
parameter mapping for a raw tool with no schema or whose schema has no
properties field. -/
theorem normalizeTool_spec :
    (∀ (schema : RawSchema) (n : String) (p : RawParam),
        (normalizeParam schema n p).required = true ↔ n ∈ schema.required?.getD [])
    ∧ (∀ (schema : RawSchema) (n : String) (p : RawParam),
        p.type? = none → (normalizeParam schema n p).type = "string")
    ∧ (∀ t : RawTool, t.parameters? = none → normalizeToolParams t = [])
    ∧ (∀ (t : RawTool) (schema : RawSchema),
        t.parameters? = some schema → schema.properties? = none →
        normalizeToolParams t = []) := by
  refine ⟨?_, ?_, ?_, ?_⟩
  · intro schema n p
    rcases h : schema.required? with _ | req
    · simp [normalizeParam, h]
    · simp [normalizeParam, h]
  · intro schema n p h
    simp [normalizeParam, h]
  · intro t h
    simp [normalizeToolParams, h]
  · intro t schema ht hp
    simp [normalizeToolParams, ht, hp]

theorem normalizeTool_spec_witness :
    (({ required? := some ["filePath"] } : RawSchema).required?.getD [] = ["filePath"]
      ∧ (normalizeParam { required? := some ["filePath"] } "filePath" {}).required = true)
    ∧ (({} : RawParam).type? = none
      ∧ (normalizeParam { required? := some ["filePath"] } "filePath" {}).type = "string")
    ∧ (({ id := "bash" } : RawTool).parameters? = none
      ∧ normalizeToolParams { id := "bash" } = [])
    ∧ (({ id := "glob", parameters? := some {} } : RawTool).parameters? = some {}
      ∧ ({} : RawSchema).properties? = none
      ∧ normalizeToolParams { id := "glob", parameters? := some {} } = []) := by
  refine ⟨⟨rfl, ?_⟩, ⟨rfl, ?_⟩, ⟨rfl, ?_⟩, ⟨rfl, rfl, ?_⟩⟩
  · exact (normalizeTool_spec.1 { required? := some ["filePath"] } "filePath" {}).mpr
      (by decide)
  · exact normalizeTool_spec.2.1 { required? := some ["filePath"] } "filePath" {} rfl
  · exact normalizeTool_spec.2.2.1 { id := "bash" } rfl
  · exact normalizeTool_spec.2.2.2 { id := "glob", parameters? := some {} } {} rfl rfl

/-- C8: agent catalog construction excludes every raw agent whose mode is
primary, and a descriptor is in the catalog exactly when it keeps the name,
description and mode of some non-primary raw agent. -/
theorem normalizeAgents_spec :
    ∀ (raw : List RawAgent) (a : PTCAgent),
      a ∈ normalizeAgents raw ↔
        ∃ r ∈ raw, r.mode ≠ AgentMode.primary
          ∧ a.name = r.name ∧ a.description = r.description ∧ a.mode = r.mode := by
  intro raw a
  simp only [normalizeAgents, List.mem_map, List.mem_filter]
  constructor
  · rintro ⟨r, ⟨hr, hmode⟩, rfl⟩
    exact ⟨r, hr, by simpa using hmode, rfl, rfl, rfl⟩
  · rintro ⟨r, hr, hmode, h1, h2, h3⟩
    refine ⟨r, ⟨hr, by simpa using hmode⟩, ?_⟩
    cases a
    simp_all


/-- C9: for a catalog with one tool `read-file` taking a single required
string parameter `filePath`, the signature listing renders the line
`async function read_file(args: \x7b filePath: string \x7d): Promise<string>`
(at index 3) after the "Available Tools" heading (at index 0); parameter
display types map string to string, number and integer to number, boolean
to boolean, array to unknown[], object to Record<string, unknown> and
anything else to unknown; optional parameters get a "?" suffix and
required ones none. -/
theorem signature_listing_spec :
    ((signatureLines [readFileTool] [] []).get? 0 = some "// Available Tools"
      ∧ (signatureLines [readFileTool] [] []).get? 3 =
          some "async function read_file(args: \x7b filePath: string \x7d): Promise<string>")
    ∧ mapTypeToTS "string" = "string"
    ∧ mapTypeToTS "number" = "number"
    ∧ mapTypeToTS "integer" = "number"
    ∧ mapTypeToTS "boolean" = "boolean"
    ∧ mapTypeToTS "array" = "unknown[]"
    ∧ mapTypeToTS "object" = "Record<string, unknown>"
    ∧ (∀ t : String,
        t ∉ ["string", "number", "integer", "boolean", "array", "object"] →
        mapTypeToTS t = "unknown")
    ∧ (∀ (n : String) (p : PTCParameter), p.required = false →
        renderParam n p = n ++ "?" ++ ": " ++ mapTypeToTS p.type)
    ∧ (∀ (n : String) (p : PTCParameter), p.required = true →
        renderParam n p = n ++ "" ++ ": " ++ mapTypeToTS p.type) := by
  refine ⟨⟨rfl, rfl⟩, rfl, rfl, rfl, rfl, rfl, rfl, ?_, ?_, ?_⟩
  · intro t ht
    simp only [List.mem_cons, List.not_mem_nil, or_false, not_or] at ht
    obtain ⟨h1, h2, h3, h4, h5, h6⟩ := ht
    simp [mapTypeToTS, h1, h2, h3, h4, h5, h6]
  · intro n p h
    simp [renderParam, h]
  · intro n p h
    simp [renderParam, h]

theorem signature_listing_spec_witness :
    ("date" ∉ (["string", "number", "integer", "boolean", "array", "object"] : List String)
      ∧ mapTypeToTS "date" = "unknown")
    ∧ (({ type := "number", required := false } : PTCParameter).required = false
      ∧ renderParam "count" { type := "number", required := false }
          = "count" ++ "?" ++ ": " ++ mapTypeToTS "number")
    ∧ (({ type := "string", required := true } : PTCParameter).required = true
      ∧ renderParam "filePath" { type := "string", required := true }
          = "filePath" ++ "" ++ ": " ++ mapTypeToTS "string") := by
  refine ⟨⟨by decide, signature_listing_spec.2.2.2.2.2.2.2.1 "date" (by decide)⟩,
          ⟨rfl, signature_listing_spec.2.2.2.2.2.2.2.2.1 "count" { type := "number", required := false } rfl⟩,
          ⟨rfl, signature_listing_spec.2.2.2.2.2.2.2.2.2 "filePath" { type := "string", required := true } rfl⟩⟩

/-- C10: each call of the logging function appends exactly one entry,
formed by joining the argument pieces with a single space, where a string
argument is kept verbatim and every non-string argument is JSON-serialized;
a sequence of calls appends its entries in call order. -/
theorem log_spec :
    (∀ (logs : List String) (args : List JSValue),
        logCall logs args = logs ++ [logEntry args])
    ∧ (∀ args : List JSValue,
        logEntry args = String.intercalate " " (args.map logArgPiece))
    ∧ (∀ s : String, logArgPiece (JSValue.vStr s) = s)
    ∧ (∀ n : Int, logArgPiece (JSValue.vNum n) = jsonStringify (JSValue.vNum n))
    ∧ (∀ b : Bool, logArgPiece (JSValue.vBool b) = jsonStringify (JSValue.vBool b))
    ∧ logArgPiece JSValue.vNull = jsonStringify JSValue.vNull
    ∧ (∀ xs, logArgPiece (JSValue.vArr xs) = jsonStringify (JSValue.vArr xs))
    ∧ (∀ fs, logArgPiece (JSValue.vObj fs) = jsonStringify (JSValue.vObj fs))
    ∧ (∀ (l0 : List String) (calls : List (List JSValue)),
        runLog l0 calls = l0 ++ calls.map logEntry) := by
  refine ⟨fun _ _ => rfl, fun _ => rfl, fun _ => rfl, fun _ => rfl, fun _ => rfl,
          rfl, fun _ => rfl, fun _ => rfl, ?_⟩
  intro l0 calls
  induction calls generalizing l0 with
  | nil => simp [runLog]
  | cons c cs ih =>
    show runLog (logCall l0 c) cs = l0 ++ logEntry c :: cs.map logEntry
    rw [ih (logCall l0 c)]
    simp [logCall]


/-- C2: every capability invocation attempt (tool, agent or skill binding)
appends exactly one CallRecord to the shared sink, whatever the host
outcome was (result returned, error response, or a raised rejection), and
the appended record's duration is the elapsed time written in that same
always-executed finally path. -/
theorem callRecord_appended_once :
    (∀ (tool : PTCTool) (ctx : PTCContext) (host : ToolExecBody → HostToolOutcome)
        (args : List (String × JSValue)) (elapsed : Nat)
        (records : List PTCToolCallRecord),
        ∃ rec : PTCToolCallRecord,
          (toolInvoke tool ctx host args elapsed records).2 = records ++ [rec]
          ∧ rec.duration = elapsed ∧ rec.tool = tool.name ∧ rec.args = args)
    ∧ (∀ (agent : PTCAgent) (prompt : String) (elapsed : Nat)
        (records : List PTCToolCallRecord),
        ∃ rec : PTCToolCallRecord,
          (agentInvoke agent prompt elapsed records).2 = records ++ [rec]
          ∧ rec.duration = elapsed ∧ rec.tool = "agent:" ++ agent.name)
    ∧ (∀ (skill : PTCSkill) (elapsed : Nat) (records : List PTCToolCallRecord),
        ∃ rec : PTCToolCallRecord,
          (skillInvoke skill elapsed records).2 = records ++ [rec]
          ∧ rec.duration = elapsed ∧ rec.tool = "skill:" ++ skill.name) := by
  refine ⟨?_, ?_, ?_⟩
  · intro tool ctx host args elapsed records
    rcases hh : host (toolExecBody ctx tool.name args) with o | e | m
    · refine ⟨{ tool := tool.name, args := args, result := some (o.getD ""), duration := elapsed }, ?_, rfl, rfl, rfl⟩
      simp [toolInvoke, hh]
    · refine ⟨{ tool := tool.name, args := args, error := some ("Tool execute failed: " ++ e), duration := elapsed }, ?_, rfl, rfl, rfl⟩
      simp [toolInvoke, hh]
    · refine ⟨{ tool := tool.name, args := args, error := some m, duration := elapsed }, ?_, rfl, rfl, rfl⟩
      simp [toolInvoke, hh]
  · intro agent prompt elapsed records
    exact ⟨_, rfl, rfl, rfl⟩
  · intro skill elapsed records
    exact ⟨_, rfl, rfl, rfl⟩

/-- C6: invoking a generated agent or skill binding always raises, and
always appends exactly one CallRecord whose error field is set and whose
tool field is "agent:" followed by the agent name (respectively "skill:"
followed by the skill name). -/
theorem agent_skill_placeholder :
    ∀ (agent : PTCAgent) (skill : PTCSkill) (prompt : String) (elapsed : Nat)
      (records : List PTCToolCallRecord),
      (∃ msg, (agentInvoke agent prompt elapsed records).1 = Except.error msg)
      ∧ (∃ rec : PTCToolCallRecord,
          (agentInvoke agent prompt elapsed records).2 = records ++ [rec]
          ∧ rec.tool = "agent:" ++ agent.name ∧ rec.error.isSome = true)
      ∧ (∃ msg, (skillInvoke skill elapsed records).1 = Except.error msg)
      ∧ (∃ rec : PTCToolCallRecord,
          (skillInvoke skill elapsed records).2 = records ++ [rec]
          ∧ rec.tool = "skill:" ++ skill.name ∧ rec.error.isSome = true) := by
  intro agent skill prompt elapsed records
  exact ⟨⟨_, rfl⟩, ⟨_, rfl, rfl, rfl⟩, ⟨_, rfl⟩, ⟨_, rfl, rfl, rfl⟩⟩

/-- C3: evaluation at the failing input. The tool binding does send the
host the context's session, message, provider and agent identifiers, the
tool's original name and the argument mapping, but the context object that
`ptc_execute` builds (ptc-tool.ts lines 67-73) omits `modelID`, although
the `PTCContext` interface of types.ts declares `modelID : string` as a
required property; so the body reaching `client.tool.execute` carries no
model identifier. -/
theorem ptcContext_missing_modelID :
    (toolExecBody (buildPtcContext "ses_abc" "msg_abc" "anthropic" "build")
        "read-file" [("filePath", JSValue.vStr "/tmp/x.txt")]).sessionID = "ses_abc"
    ∧ (toolExecBody (buildPtcContext "ses_abc" "msg_abc" "anthropic" "build")
        "read-file" [("filePath", JSValue.vStr "/tmp/x.txt")]).messageID = "msg_abc"
    ∧ (toolExecBody (buildPtcContext "ses_abc" "msg_abc" "anthropic" "build")
        "read-file" [("filePath", JSValue.vStr "/tmp/x.txt")]).providerID = "anthropic"
    ∧ (toolExecBody (buildPtcContext "ses_abc" "msg_abc" "anthropic" "build")
        "read-file" [("filePath", JSValue.vStr "/tmp/x.txt")]).agent = "build"
    ∧ (toolExecBody (buildPtcContext "ses_abc" "msg_abc" "anthropic" "build")
        "read-file" [("filePath", JSValue.vStr "/tmp/x.txt")]).toolID = "read-file"
    ∧ (toolExecBody (buildPtcContext "ses_abc" "msg_abc" "anthropic" "build")
        "read-file" [("filePath", JSValue.vStr "/tmp/x.txt")]).args
        = [("filePath", JSValue.vStr "/tmp/x.txt")]
    ∧ (toolExecBody (buildPtcContext "ses_abc" "msg_abc" "anthropic" "build")
        "read-file" [("filePath", JSValue.vStr "/tmp/x.txt")]).modelID = none
    ∧ ¬ (buildPtcContext "ses_abc" "msg_abc" "anthropic" "build").hasDeclaredModelID := by
  refine ⟨rfl, rfl, rfl, rfl, rfl, rfl, rfl, ?_⟩
  simp [PTCContext.hasDeclaredModelID, buildPtcContext]

/-- C1: for every submitted code behaviour and options, `execute` returns
an ExecutionResult (it is total: every rejection of the inner race,
including a compile error, is caught); its success flag is true exactly
when the code compiled, settled before the deadline and resolved; the logs
and toolCalls gathered so far are in the result in every case, and a failed
result always carries an error string. -/
theorem execute_total_result :
    ∀ (b : CodeBehavior) (opts : PTCExecutorOptions),
      (execute b opts).logs = b.logs
      ∧ (execute b opts).toolCalls = b.records
      ∧ ((execute b opts).success = true ↔
            b.compileError? = none
            ∧ b.settleTime < (resolveOptions opts).timeout
            ∧ ∃ v, b.outcome = CodeOutcome.returns v)
      ∧ ((execute b opts).success = false → ∃ e, (execute b opts).error = some e) := by
  intro b opts
  unfold execute executeWithTimeout
  rcases hc : b.compileError? with _ | msg
  · by_cases hlt : b.settleTime < (resolveOptions opts).timeout
    · rcases ho : b.outcome with v | m
      · simp [hc, hlt, ho]
      · simp [hc, hlt, ho]
    · simp [hc, hlt]
  · simp [hc]

theorem execute_total_result_witness :
    (execute compileFailBehavior {}).success = false
    ∧ (execute compileFailBehavior {}).logs = compileFailBehavior.logs
    ∧ (execute compileFailBehavior {}).toolCalls = compileFailBehavior.records
    ∧ ∃ e, (execute compileFailBehavior {}).error = some e := by
  have h := execute_total_result compileFailBehavior {}
  exact ⟨rfl, h.1, h.2.1, h.2.2.2 rfl⟩

/-- C4: an absent timeout option resolves to the 300000 ms default and a
configured timeout T resolves to T; when the submitted code compiles but
does not settle within the resolved timeout, the result has success false
and its error is the timeout message, which contains the configured
duration as a substring. -/
theorem timeout_behavior :
    (∀ mtc : Option Nat,
        (resolveOptions { timeout := none, maxToolCalls := mtc }).timeout = 300000)
    ∧ (∀ T : Nat, (resolveOptions { timeout := some T }).timeout = T)
    ∧ (∀ (b : CodeBehavior) (opts : PTCExecutorOptions),
        b.compileError? = none →
        (resolveOptions opts).timeout ≤ b.settleTime →
        (execute b opts).success = false
        ∧ (execute b opts).error = some (timeoutMessage (resolveOptions opts).timeout)
        ∧ ∃ pre post, timeoutMessage (resolveOptions opts).timeout
            = pre ++ toString (resolveOptions opts).timeout ++ post) := by
  refine ⟨fun _ => rfl, fun _ => rfl, ?_⟩
  intro b opts hc hle
  unfold execute executeWithTimeout
  simp only [hc]
  rw [if_neg (Nat.not_lt.mpr hle)]
  exact ⟨rfl, rfl, "Execution timed out after ", "ms", rfl⟩

theorem timeout_behavior_witness :
    timedOutBehavior.compileError? = none
    ∧ (resolveOptions { timeout := some 5000 }).timeout ≤ timedOutBehavior.settleTime
    ∧ (execute timedOutBehavior { timeout := some 5000 }).success = false
    ∧ (execute timedOutBehavior { timeout := some 5000 }).error
        = some "Execution timed out after 5000ms"
    ∧ (execute timedOutBehavior { timeout := some 5000 }).logs = ["step 1 done"] := by
  have h := timeout_behavior.2.2 timedOutBehavior { timeout := some 5000 } rfl (by decide)
  exact ⟨rfl, by decide, h.1, h.2.1.trans (by decide), rfl⟩


end PTC
